import Mathlib

/-!
Verification development for the freight-accrual re-coding pipeline
(`pipeline.py`, `address_crossref.py`, `map_types.py`, `matrix_map.py`).

The pipeline is a row-independent pandas batch transform; every operation the
claims concern is a per-row computation, so the embedding models one row's
party-resolution path and the per-row helper functions, translated directly
from the Python source.  Pandas cells are modelled by `Cell`, which keeps the
distinction between Python `None`, `pandas.NA`, float `nan`, and a string,
because `str()`, `pd.isna` and `is None` treat them differently and the source
mixes all three missing markers.
-/

/-- A pandas cell of an object-dtype column: Python `None`, `pandas.NA`,
float `nan`, or a string value. -/
inductive Cell where
  | pyNone
  | pyNA
  | pyNaN
  | str (s : String)
deriving DecidableEq, Repr

/-- Python `str()` of a cell, as pandas `.astype(str)` applies it elementwise:
`str(None) = "None"`, `str(pd.NA) = "<NA>"`, `str(nan) = "nan"`. -/
def Cell.pyStr : Cell → String
  | .pyNone => "None"
  | .pyNA => "<NA>"
  | .pyNaN => "nan"
  | .str s => s

/-- `pd.isna` on a scalar cell. -/
def Cell.isna : Cell → Bool
  | .str _ => false
  | _ => true

/-- Python whitespace for `str.strip` / `str.split` (ASCII whitespace plus the
no-break space; the zero-width space U+200B is *not* Python whitespace). -/
def pyIsSpace (c : Char) : Bool :=
  c = ' ' ∨ c = '\t' ∨ c = '\n' ∨ c = '\x0d' ∨ c = '\x0b' ∨ c = '\x0c' ∨ c = '\u00A0'

/-- The lower→upper letter table of ASCII case mapping. -/
def upperPairs : List (Char × Char) :=
  [('a', 'A'), ('b', 'B'), ('c', 'C'), ('d', 'D'), ('e', 'E'), ('f', 'F'),
   ('g', 'G'), ('h', 'H'), ('i', 'I'), ('j', 'J'), ('k', 'K'), ('l', 'L'),
   ('m', 'M'), ('n', 'N'), ('o', 'O'), ('p', 'P'), ('q', 'Q'), ('r', 'R'),
   ('s', 'S'), ('t', 'T'), ('u', 'U'), ('v', 'V'), ('w', 'W'), ('x', 'X'),
   ('y', 'Y'), ('z', 'Z')]

/-- ASCII `str.upper` on one character (the pipeline's data is ASCII). -/
def pyUpperChar (c : Char) : Char :=
  ((upperPairs.find? (fun p => decide (p.1 = c))).map (·.2)).getD c

/-- ASCII `str.lower` on one character. -/
def pyLowerChar : Char → Char
  | 'A' => 'a' | 'B' => 'b' | 'C' => 'c' | 'D' => 'd' | 'E' => 'e' | 'F' => 'f'
  | 'G' => 'g' | 'H' => 'h' | 'I' => 'i' | 'J' => 'j' | 'K' => 'k' | 'L' => 'l'
  | 'M' => 'm' | 'N' => 'n' | 'O' => 'o' | 'P' => 'p' | 'Q' => 'q' | 'R' => 'r'
  | 'S' => 's' | 'T' => 't' | 'U' => 'u' | 'V' => 'v' | 'W' => 'w' | 'X' => 'x'
  | 'Y' => 'y' | 'Z' => 'z' | c => c

/-- Python `str.upper`. -/
def pyUpper (s : String) : String := String.mk (s.data.map pyUpperChar)

/-- Python `str.lower`. -/
def pyLower (s : String) : String := String.mk (s.data.map pyLowerChar)

/-- `str.strip` on the character list: drop whitespace from both ends. -/
def pyStripList (l : List Char) : List Char :=
  ((l.dropWhile pyIsSpace).reverse.dropWhile pyIsSpace).reverse

/-- Python `str.strip()`. -/
def pyStrip (s : String) : String := String.mk (pyStripList s.data)

/-- Character class of the token regex `[A-Z0-9]+` used by the code
extractors. -/
def isTokChar (c : Char) : Bool :=
  ('A' ≤ c ∧ c ≤ 'Z') ∨ ('0' ≤ c ∧ c ≤ '9')

/-- Maximal runs of `p`-characters (gaps discarded): the semantics of
`re.findall` on a single character class, and of `str.split()` with
`p = not whitespace`. -/
def runsByAux (p : Char → Bool) : List Char → List Char → List (List Char)
  | acc, [] => if acc.isEmpty then [] else [acc.reverse]
  | acc, c :: cs =>
    if p c then runsByAux p (c :: acc) cs
    else if acc.isEmpty then runsByAux p [] cs
    else acc.reverse :: runsByAux p [] cs

/-- Maximal runs of `p`-characters (see `runsByAux`). -/
def runsBy (p : Char → Bool) (l : List Char) : List (List Char) := runsByAux p [] l

/-- `re.findall(r"[A-Z0-9]+", t)`: the whole alphanumeric tokens of `t`. -/
def pyTokens (t : String) : List String := (runsBy isTokChar t.data).map String.mk

/-- `needle in haystack` on Python strings (substring test), on lists. -/
def containsSub (h n : List Char) : Bool :=
  match h with
  | [] => n.isEmpty
  | _ :: t => n.isPrefixOf h || containsSub t n

/-- `needle in haystack` on Python strings (substring test). -/
def pyContains (h n : String) : Bool := containsSub h.data n.data

/-- `s.startswith(pre)`. -/
def pyStartsWith (s pre : String) : Bool := pre.data.isPrefixOf s.data

/-- `str.zfill(w)` on the character list: left-pad with `'0'` to width `w`,
keeping a leading sign in front of the padding. -/
def pyZfillList (w : Nat) (l : List Char) : List Char :=
  if w ≤ l.length then l
  else
    match l with
    | [] => List.replicate w '0'
    | c :: cs =>
      if c = '+' ∨ c = '-' then c :: (List.replicate (w - l.length) '0' ++ cs)
      else List.replicate (w - l.length) '0' ++ l

/-- Python `str.zfill(w)`. -/
def pyZfill (w : Nat) (s : String) : String := String.mk (pyZfillList w s.data)

/-- Last-wins dictionary lookup: the semantics of building a Python `dict`
from a key/value sequence (`dict(items)` keeps the last value for a repeated
key) and then calling `.get`. -/
def dictGetBy {κ ν : Type} [DecidableEq κ] (ps : List (κ × ν)) (k : κ) : Option ν :=
  (ps.reverse.find? (fun p => decide (p.1 = k))).map (·.2)

/-- First-occurrence de-duplication, as pandas `.unique()` and
`.drop_duplicates()` (keep='first') behave. -/
def uniqueAux {α : Type} [DecidableEq α] (seen : List α) : List α → List α
  | [] => []
  | a :: as => if a ∈ seen then uniqueAux seen as else a :: uniqueAux (a :: seen) as

/-- `uniqueAux` from an empty seen-set. -/
def uniqueKeepFirst {α : Type} [DecidableEq α] (l : List α) : List α := uniqueAux [] l

/-- Stable insertion for descending-by-length order: `a` goes before the first
element strictly shorter than it, so earlier equal-length codes stay first,
matching Python's stable `sorted(key=len, reverse=True)`. -/
def insertByLenDesc (a : String) : List String → List String
  | [] => [a]
  | b :: bs => if b.length ≤ a.length then a :: b :: bs else b :: insertByLenDesc a bs

/-- `sorted(codes, key=len, reverse=True)` (stable). -/
def sortByLenDesc : List String → List String
  | [] => []
  | a :: as => insertByLenDesc a (sortByLenDesc as)

/-! ## Code & party-code resolution (`pipeline.py`) -/

/-- `pipeline.py` lines 70-78: the LocationDictionary code column after
`.dropna().astype(str).str.strip().str.upper().unique()`, then
`sorted(..., key=len, reverse=True)`. -/
def prepCodes (col : List Cell) : List String :=
  sortByLenDesc (uniqueKeepFirst
    ((col.filter (fun c => !c.isna)).map (fun c => pyUpper (pyStrip c.pyStr))))

/-- `pipeline.py` line 89-90, `_blank_or_na`:
`s.isna() | (s.astype(str).str.strip() == "")`, per cell. -/
def blank_or_na (c : Cell) : Bool :=
  c.isna || decide (pyStrip c.pyStr = "")

/-- `pipeline.py` lines 120-121, `needs_text_extract`:
`type_col.isna() | type_col.astype(str).str.upper().str.contains("THIRD")`. -/
def needs_text_extract (ty : Cell) : Bool :=
  ty.isna || pyContains (pyUpper ty.pyStr) "THIRD"

/-- `pipeline.py` lines 96-105: `carrier_ok` per row; `true` when the
Carrier Name column is absent, otherwise
`astype(str).str.strip().str.lower().ne("omnitrans")`. -/
def carrier_ok : Option Cell → Bool
  | none => true
  | some c => decide (pyLower (pyStrip c.pyStr) ≠ "omnitrans")

/-- `pipeline.py` lines 107-115, per row and party: when the Org/Dest Type
Code column exists and the stripped value is non-empty and `carrier_ok`, the
party code becomes the stripped value upper-cased; otherwise unchanged. -/
def applyDirectAttr (attrCol : Option Cell) (ok : Bool) (code : Cell) : Cell :=
  match attrCol with
  | none => code
  | some a =>
    let v := pyStrip a.pyStr
    if v ≠ "" ∧ ok = true then Cell.str (pyUpper v) else code

/-- `str(text or "")` in `find_code_in_text`: Python `None` and `""` are
falsy so they give `""`; float `nan` is truthy and `str` shows it as `"nan"`.
(CPython would raise on `pd.NA`, which cannot reach a name column; it is
rendered like `str` would render it.) -/
def pyTextOr : Cell → String
  | .pyNone => ""
  | .pyNA => "<NA>"
  | .pyNaN => "nan"
  | .str s => s

/-- The whole alphanumeric tokens of a party-name cell, upper-cased, as
`find_code_in_text` computes them. -/
def tokensOfCell (text : Cell) : List String := pyTokens (pyUpper (pyTextOr text))

/-- `pipeline.py` lines 80-87, `find_code_in_text`: walk the length-sorted
codes and return the first one occurring as a whole token of the text. -/
def find_code_in_text (codes_sorted : List String) (text : Cell) : Option String :=
  (codes_sorted.find? (fun code => decide (code ∈ tokensOfCell text)))

/-- `pipeline.py` lines 123-134 per row and party: extract from the name text
only when the type needs extraction and the code is blank; a miss stores
Python `None`. Skipped entirely when the name column is absent. -/
def applyTextExtract (codes : List String) (name : Option Cell) (ty code : Cell) : Cell :=
  match name with
  | none => code
  | some nm =>
    if needs_text_extract ty && blank_or_na code then
      match find_code_in_text codes nm with
      | some c => Cell.str c
      | none => Cell.pyNone
    else code

/-- `pipeline.py` lines 150-158: the valid location codes of the attribute
table column, `dropna().astype(str).str.strip().str.upper().unique()`. -/
def validLocCodes (col : List Cell) : List String :=
  uniqueKeepFirst ((col.filter (fun c => !c.isna)).map (fun c => pyUpper (pyStrip c.pyStr)))

/-- `pipeline.py` lines 160-175 per row and party: a non-blank, non-`"NAN"`,
non-missing code that is not in the valid set is blanked to `pd.NA` and the
row is flagged to force the address merge. `none` models the case where no
loc-code column was found (the whole step is skipped). -/
def applyInvalidBlank (valid : Option (List String)) (code : Cell) : Cell × Bool :=
  match valid with
  | none => (code, false)
  | some vs =>
    let nrm := pyUpper (pyStrip code.pyStr)
    let has := decide (nrm ≠ "") && decide (nrm ≠ "NAN") && !code.isna
    let invalid := has && !(decide (nrm ∈ vs))
    (if invalid = true then Cell.pyNA else code, invalid)

/-! ## Address fallback (`address_crossref.py`) -/

/-- `address_crossref.py` lines 62-69: the rows of
`cintas_location_table[["Combined Address", "Loc Code"]]` after
`.dropna().drop_duplicates()`, as string pairs. -/
def addrToLocPairs (table : List (Cell × Cell)) : List (String × String) :=
  uniqueKeepFirst
    ((table.filter (fun p => !p.1.isna && !p.2.isna)).map (fun p => (p.1.pyStr, p.2.pyStr)))

/-- The `addr_to_loc` dictionary built by `.set_index(...).to_dict()` (last
occurrence wins for a repeated key), queried with `.get`. -/
def addrToLocGet (table : List (Cell × Cell)) (k : String) : Option String :=
  dictGetBy (addrToLocPairs table) k

/-- `address_crossref.py` lines 11-24, `Merger._needs_address_fill`: fill only
when the code is blank (Python `None` or whitespace string) and the type is
blank or contains `THIRD`. -/
def needs_address_fill (code ty : Cell) : Bool :=
  let code_str := match code with
    | Cell.pyNone => ""
    | c => pyStrip c.pyStr
  let type_str := match ty with
    | Cell.pyNone => ""
    | c => pyStrip (pyUpper c.pyStr)
  if code_str ≠ "" then false
  else decide (type_str = "") || pyContains type_str "THIRD"

/-- `address_crossref.py` lines 70-78, `fill_code` per row: keep the current
code unless `needs_address_fill`; then look the combined address up in the
`addr_to_loc` dictionary, defaulting to the current code. -/
def fill_code (pairs : List (String × String)) (code ty addr : Cell) : Cell :=
  if !(needs_address_fill code ty) then code
  else if addr.isna then code
  else
    match dictGetBy pairs addr.pyStr with
    | some loc => Cell.str loc
    | none => code

/-- `pipeline.py` lines 221-249 per row and party: run the address merge on
the row only when (code blank and type blank/THIRD) or the row was flagged by
the invalid-code step. -/
def applyAddressFill (pairs : List (String × String)) (ty addr : Cell)
    (st : Cell × Bool) : Cell :=
  if (blank_or_na st.1 && needs_text_extract ty) || st.2 then
    fill_code pairs st.1 ty addr
  else st.1

/-- The per-row, per-party inputs of the resolution stages of
`PipelineRunner.run`: the direct-attribute column value (`none` = column
absent), the Carrier Name column value (`none` = column absent), the party
name column value (`none` = column absent), the party type, the initial party
code and the party's combined address (built and upper-cased by step 4). -/
structure PartyInput where
  attrCol : Option Cell
  carrierCol : Option Cell
  nameCol : Option Cell
  ty : Cell
  code0 : Cell
  addr : Cell
deriving DecidableEq, Repr

/-- `PipelineRunner.run` steps 2, 3, 3B and 5 for one row and one party: the
resolved party code after direct-attribute priority, text extraction,
invalid-code blanking and the address merge. -/
def resolvePartyCode (codes : List String) (valid : Option (List String))
    (pairs : List (String × String)) (inp : PartyInput) : Cell :=
  applyAddressFill pairs inp.ty inp.addr
    (applyInvalidBlank valid
      (applyTextExtract codes inp.nameCol inp.ty
        (applyDirectAttr inp.attrCol (carrier_ok inp.carrierCol) inp.code0)))

/-! ## Type mapping (`map_types.py`) -/

/-- `map_types.py` lines 31-35: fill the type only when it is missing, blank,
or the `"N.A."` sentinel. -/
def typeFillMask (ty : Cell) : Bool :=
  ty.isna || decide (pyStrip ty.pyStr = "") || decide (pyStrip (pyUpper ty.pyStr) = "N.A.")

/-- `map_types.py` lines 14-16, step 1: format the code
`astype(str).str.zfill(4).str.upper()` only when not missing. -/
def formatCodeCell (code : Cell) : Cell :=
  if code.isna then code else Cell.str (pyUpper (pyZfill 4 code.pyStr))

/-- `map_types.py` steps 2-3: the left merge of the formatted code against the
location table's formatted `Loc Code` (`lookup`; the table is assumed unique
on `Loc Code` per the data-model invariant). A missing key or a missing code
yields `nan`, as an unmatched left join does. -/
def lookupTypeCode (lookup : String → Cell) : Cell → Cell
  | Cell.str s => lookup s
  | _ => Cell.pyNaN

/-- `map_types.py`, `TypeMapper.map_types` per row: format the code, merge the
type from the location table, and fill the type only through `typeFillMask`.
Returns the new (code, type) pair. -/
def map_types_row (lookup : String → Cell) (code ty : Cell) : Cell × Cell :=
  (formatCodeCell code,
   if typeFillMask ty then lookupTypeCode lookup (formatCodeCell code) else ty)

/-! ## Matrix mapping (`matrix_map.py`) -/

/-- `matrix_map.py` line 5. -/
def SPECIAL_CODES : List String := ["0K35", "024P", "067N"]

/-- `matrix_map.py` lines 7-11: the 67N geography set. -/
def LOCATION_CODES_67N : List String :=
  ["029N", "030N", "031N", "032N", "033N", "034N", "039N", "042N", "045N", "046N", "048N",
   "055N", "060N", "0827", "0839", "0847", "0850", "0851", "0857", "0881", "0882", "0884",
   "0885", "0886", "0888", "0889", "0903", "0951", "0W17"]

/-- `matrix_map.py` line 14: the 97H geography set. -/
def LOCATION_CODES_97H : List String := ["029G", "030G", "031G"]

/-- `matrix_map.py` lines 17-24, `_norm` on a string: upper-case, strip,
remove U+00A0 and U+200B, collapse whitespace runs to single spaces. -/
def pyNormStr (s : String) : String :=
  let a := pyStripList (s.data.map pyUpperChar)
  let b := (a.filter (fun c => c ≠ '\u00A0')).filter (fun c => c ≠ '\u200B')
  String.mk (List.intercalate [' '] (runsBy (fun c => !pyIsSpace c) b))

/-- `matrix_map.py` `_norm` on a cell: non-strings normalize to `""`. -/
def pyNorm : Cell → String
  | .str s => pyNormStr s
  | _ => ""

/-- The row fields read by `MatrixMapper.determine_profit_center`
(`row.get` of an absent column gives Python `None`, i.e. `Cell.pyNone`). -/
structure MatrixRow where
  consignor : Cell
  consignee : Cell
  consigneeCode : Cell
  consignorCode : Cell
  originAddress : Cell
  consignorType : Cell
  consigneeType : Cell
  carrierName : Cell
  carrier : Cell
  carrierName2 : Cell
deriving DecidableEq, Repr

/-- `matrix_map.py` lines 28-34, `_get_carrier`: first of the columns
`Carrier Name`, `Carrier`, `CarrierName` holding a string with non-blank
strip, returned as `strip().lower()`; else `""`. -/
def getCarrier (r : MatrixRow) : String :=
  match r.carrierName with
  | Cell.str s =>
    if pyStrip s ≠ "" then pyLower (pyStrip s)
    else match r.carrier with
      | Cell.str t =>
        if pyStrip t ≠ "" then pyLower (pyStrip t)
        else match r.carrierName2 with
          | Cell.str u => if pyStrip u ≠ "" then pyLower (pyStrip u) else ""
          | _ => ""
      | _ => match r.carrierName2 with
        | Cell.str u => if pyStrip u ≠ "" then pyLower (pyStrip u) else ""
        | _ => ""
  | _ => match r.carrier with
    | Cell.str t =>
      if pyStrip t ≠ "" then pyLower (pyStrip t)
      else match r.carrierName2 with
        | Cell.str u => if pyStrip u ≠ "" then pyLower (pyStrip u) else ""
        | _ => ""
    | _ => match r.carrierName2 with
      | Cell.str u => if pyStrip u ≠ "" then pyLower (pyStrip u) else ""
      | _ => ""

/-- `code or pd.NA` on a normalized (string) code: `""` is falsy. -/
def orNA (s : String) : Cell := if s = "" then Cell.pyNA else Cell.str s

/-- `matrix_map.py` lines 35-89, `MatrixMapper.determine_profit_center`.
`special_map` and `coding_map` stand for `SPECIAL_TYPE_MAPPINGS` and
`Coding_Matrix` from `coding_matrix.py`, a configuration module that is not
part of the sources here; they are passed as data and key-normalized exactly
as lines 72-73 do (a Python dict comprehension keeps the last value of a
repeated normalized key). -/
def determine_profit_center (special_map coding_map : List ((String × String) × String))
    (row : MatrixRow) : Cell :=
  let consignor := pyNorm row.consignor
  let consignee := pyNorm row.consignee
  let consignee_code := pyNorm row.consigneeCode
  let consignor_code := pyNorm row.consignorCode
  let origin_address := pyNorm row.originAddress
  let consignor_type := pyNorm row.consignorType
  let consignee_type := pyNorm row.consigneeType
  let carrier_lc := getCarrier row
  let consignor_lower := pyLower consignor
  if pyContains consignor_lower "matheson" && pyContains consignor_lower "fs" then
    Cell.str "067N"
  else if carrier_lc = "omnitrans" then orNA consignee_code
  else if pyContains consignor "AVERITT" then Cell.str "0004"
  else if pyContains consignor "COOPETRAJES" || pyContains consignee "COOPETRAJES" then
    Cell.str "0896"
  else if consignee_code ∈ SPECIAL_CODES then Cell.str consignee_code
  else if consignee_code ∈ LOCATION_CODES_67N
      ∧ pyStartsWith origin_address "570 MATH" = true
      ∧ ¬(pyContains (pyLower consignor) "cintas 0897"
          || pyContains (pyLower consignor) "0897"
          || pyContains (pyLower consignor) "897") = true then
    Cell.str "067N"
  else if consignee_code ∈ LOCATION_CODES_97H then Cell.str "097H"
  else
    let key_norm := (pyNormStr consignor_type, pyNormStr consignee_type)
    let special := special_map.map (fun e => ((pyNormStr e.1.1, pyNormStr e.1.2), e.2))
    let coding := coding_map.map (fun e => ((pyNormStr e.1.1, pyNormStr e.1.2), e.2))
    let fromMatrix : Option Cell :=
      match dictGetBy special key_norm with
      | some v => some (Cell.str v)
      | none =>
        match dictGetBy coding key_norm with
        | some d =>
          if d = "ORIGIN" then some (orNA consignor_code)
          else if d = "DESTINATION" then some (orNA consignee_code)
          else none
        | none => none
    match fromMatrix with
    | some r => r
    | none =>
      let aliases : List String := ["NON-CINTAS", "NON CINTAS", "NONCINTAS", "NON-CIN"]
      if pyStartsWith consignor_type "US" && decide (consignee_type ∈ aliases) then
        orNA consignor_code
      else if pyStartsWith consignee_type "US" && decide (consignor_type ∈ aliases) then
        orNA consignee_code
      else Cell.pyNA

/-! ## GL account and accuracy (`pipeline.py` steps 10 and 12) -/

/-- Three-valued result of a Python/pandas scalar comparison: `True`, `False`
or `pd.NA`. -/
inductive PyBool where
  | t
  | f
  | na
deriving DecidableEq, Repr

/-- Python scalar `==` on cells: `None == None` is `True`; any comparison
with float `nan` is `False`; any comparison with `pd.NA` propagates `NA`. -/
def pyEq : Cell → Cell → PyBool
  | Cell.pyNA, _ => .na
  | _, Cell.pyNA => .na
  | Cell.pyNone, Cell.pyNone => .t
  | Cell.pyNaN, _ => .f
  | _, Cell.pyNaN => .f
  | Cell.pyNone, Cell.str _ => .f
  | Cell.str _, Cell.pyNone => .f
  | Cell.str s, Cell.str t => if s = t then .t else .f

/-- Kleene conjunction, as pandas `&` with `pd.NA`. -/
def kand : PyBool → PyBool → PyBool
  | .f, _ => .f
  | _, .f => .f
  | .t, .t => .t
  | _, _ => .na

/-- `notna` of a cell as a `PyBool`. -/
def pyNotna (c : Cell) : PyBool := if c.isna then .f else .t

/-- `pipeline.py` lines 298-307, the `Account # EJ` lambda per row:
`621000` when `"G59" in str(Profit Center EJ)`, else `621000`/`621020` by
`Consignee Code == Assigned Location Code`; evaluating that comparison under
`if` raises `TypeError` when a side is `pd.NA` (CPython:
"boolean value of NA is ambiguous"). -/
def accountEJ (pcEJ cons alc : Cell) : Except String Nat :=
  if pyContains pcEJ.pyStr "G59" then Except.ok 621000
  else
    match pyEq cons alc with
    | .t => Except.ok 621000
    | .f => Except.ok 621020
    | .na => Except.error "boolean value of NA is ambiguous"

/-- `pipeline.py` lines 318-326 per row:
`((Profit Center == Profit Center EJ) & Profit Center.notna() & Profit Center
EJ.notna()).astype(int)`; `astype(int)` of a `pd.NA` would raise (it cannot:
the conjunction with `notna` is never `NA`). -/
def automationAccuracy (pc pcej : Cell) : Except String Nat :=
  match kand (kand (pyEq pc pcej) (pyNotna pc)) (pyNotna pcej) with
  | .t => Except.ok 1
  | .f => Except.ok 0
  | .na => Except.error "int conversion of NA"

/-! ## String lemmas -/

theorem pyUpperChar_idem (c : Char) : pyUpperChar (pyUpperChar c) = pyUpperChar c := by
  unfold pyUpperChar
  cases hf : upperPairs.find? (fun p => decide (p.1 = c)) with
  | none => simp [hf]
  | some p =>
    have hmem : p ∈ upperPairs := List.mem_of_find?_eq_some hf
    have hnone : upperPairs.find? (fun q => decide (q.1 = p.2)) = none := by
      rw [List.find?_eq_none]
      intro q hq
      have : ∀ q' ∈ upperPairs, ∀ p' ∈ upperPairs, q'.1 ≠ p'.2 := by decide
      simpa using this q hq p hmem
    simp [hf, hnone]

theorem pyIsSpace_pyUpperChar (c : Char) : pyIsSpace (pyUpperChar c) = pyIsSpace c := by
  unfold pyUpperChar
  cases hf : upperPairs.find? (fun p => decide (p.1 = c)) with
  | none => rfl
  | some p =>
    have hmem : p ∈ upperPairs := List.mem_of_find?_eq_some hf
    have hc : p.1 = c := by simpa using List.find?_some hf
    have hsp : ∀ p' ∈ upperPairs, pyIsSpace p'.1 = false ∧ pyIsSpace p'.2 = false := by decide
    simp only [Option.map_some', Option.getD_some]
    rw [(hsp p hmem).2, ← hc, (hsp p hmem).1]

theorem pyUpper_pyUpper (s : String) : pyUpper (pyUpper s) = pyUpper s := by
  unfold pyUpper
  rw [List.map_map]
  congr 1
  exact List.map_congr_left (fun c _ => pyUpperChar_idem c)

theorem mk_eq_empty_iff (l : List Char) : String.mk l = "" ↔ l = [] := by
  constructor
  · intro h
    have := congrArg String.data h
    simpa using this
  · intro h
    subst h
    rfl

theorem pyUpper_eq_empty_iff (s : String) : pyUpper s = "" ↔ s = "" := by
  unfold pyUpper
  rw [mk_eq_empty_iff, List.map_eq_nil_iff]
  constructor
  · intro h
    have : String.mk s.data = String.mk [] := by rw [h]
    simpa using this
  · intro h
    subst h
    rfl

theorem dropWhile_dropWhile {α : Type} (p : α → Bool) (l : List α) :
    (l.dropWhile p).dropWhile p = l.dropWhile p := by
  induction l with
  | nil => rfl
  | cons c t ih =>
    rw [List.dropWhile_cons]
    split
    · exact ih
    · rw [List.dropWhile_cons_of_neg (by assumption)]

theorem dropWhile_eq_self_of_prefix {p : Char → Bool} {r m : List Char}
    (hm : m.dropWhile p = m) (hpre : r <+: m) : r.dropWhile p = r := by
  cases r with
  | nil => rfl
  | cons a t =>
    obtain ⟨u, hu⟩ := hpre
    rw [List.cons_append] at hu
    subst hu
    rw [List.dropWhile_cons] at hm
    by_cases hpa : p a = true
    · rw [if_pos hpa] at hm
      have hsuf : (t ++ u).dropWhile p <:+ (t ++ u) := List.dropWhile_suffix p
      have hlen : ((t ++ u).dropWhile p).length ≤ (t ++ u).length := hsuf.length_le
      rw [hm] at hlen
      simp at hlen
    · rw [List.dropWhile_cons_of_neg hpa]

theorem stripList_left (l : List Char) :
    (pyStripList l).dropWhile pyIsSpace = pyStripList l := by
  unfold pyStripList
  set m := l.dropWhile pyIsSpace with hm
  have hml : m.dropWhile pyIsSpace = m := dropWhile_dropWhile pyIsSpace l
  have hsuf : (m.reverse.dropWhile pyIsSpace) <:+ m.reverse := List.dropWhile_suffix pyIsSpace
  have hpre : (m.reverse.dropWhile pyIsSpace).reverse <+: m := by
    have := List.reverse_prefix.mpr hsuf
    simpa using this
  exact dropWhile_eq_self_of_prefix hml hpre

theorem stripList_right (l : List Char) :
    (pyStripList l).reverse.dropWhile pyIsSpace = (pyStripList l).reverse := by
  unfold pyStripList
  rw [List.reverse_reverse]
  exact dropWhile_dropWhile pyIsSpace (l.dropWhile pyIsSpace).reverse

theorem stripList_of_stripped {x : List Char}
    (h1 : x.dropWhile pyIsSpace = x) (h2 : x.reverse.dropWhile pyIsSpace = x.reverse) :
    pyStripList x = x := by
  unfold pyStripList
  rw [h1, h2, List.reverse_reverse]

theorem stripList_idem (l : List Char) : pyStripList (pyStripList l) = pyStripList l :=
  stripList_of_stripped (stripList_left l) (stripList_right l)

theorem stripList_map_pyUpperChar (l : List Char) :
    pyStripList (l.map pyUpperChar) = (pyStripList l).map pyUpperChar := by
  have hcomp : pyIsSpace ∘ pyUpperChar = pyIsSpace := funext pyIsSpace_pyUpperChar
  unfold pyStripList
  rw [List.dropWhile_map, hcomp, ← List.map_reverse, List.dropWhile_map, hcomp,
    ← List.map_reverse]

theorem pyStrip_pyUpper_pyStrip (s : String) :
    pyStrip (pyUpper (pyStrip s)) = pyUpper (pyStrip s) := by
  unfold pyStrip pyUpper
  simp only
  rw [stripList_map_pyUpperChar, stripList_idem]

theorem pyStrip_eq_empty_iff (s : String) : pyStrip s = "" ↔ pyStripList s.data = [] := by
  unfold pyStrip
  exact mk_eq_empty_iff _

/-! ## zfill lemmas -/

theorem le_length_pyZfillList (w : Nat) (l : List Char) : w ≤ (pyZfillList w l).length := by
  by_cases h : w ≤ l.length
  · unfold pyZfillList
    rw [if_pos h]
    exact h
  · unfold pyZfillList
    rw [if_neg h]
    cases l with
    | nil => simp
    | cons c cs =>
      dsimp only
      by_cases hc : c = '+' ∨ c = '-'
      · rw [if_pos hc]
        simp only [List.length_cons, List.length_append, List.length_replicate]
        omega
      · rw [if_neg hc]
        simp only [List.length_append, List.length_replicate, List.length_cons]
        omega

theorem pyZfill_eq_self_of_le {w : Nat} {t : String} (h : w ≤ t.data.length) :
    pyZfill w t = t := by
  unfold pyZfill pyZfillList
  rw [if_pos h]

theorem formatCode_idem (s : String) :
    pyUpper (pyZfill 4 (pyUpper (pyZfill 4 s))) = pyUpper (pyZfill 4 s) := by
  have hlen : 4 ≤ (pyUpper (pyZfill 4 s)).data.length := by
    show 4 ≤ ((pyZfill 4 s).data.map pyUpperChar).length
    rw [List.length_map]
    exact le_length_pyZfillList 4 s.data
  rw [pyZfill_eq_self_of_le hlen, pyUpper_pyUpper]

/-! ## Sorting and longest-match lemmas -/

theorem mem_insertByLenDesc {a x : String} {l : List String} :
    x ∈ insertByLenDesc a l ↔ x = a ∨ x ∈ l := by
  induction l with
  | nil => simp [insertByLenDesc]
  | cons b bs ih =>
    unfold insertByLenDesc
    split
    · simp
    · simp only [List.mem_cons, ih]
      tauto

theorem pairwise_insertByLenDesc {a : String} {l : List String}
    (h : l.Pairwise (fun x y => y.length ≤ x.length)) :
    (insertByLenDesc a l).Pairwise (fun x y => y.length ≤ x.length) := by
  induction l with
  | nil => simp [insertByLenDesc]
  | cons b bs ih =>
    rw [List.pairwise_cons] at h
    unfold insertByLenDesc
    split
    · rw [List.pairwise_cons]
      constructor
      · intro x hx
        rcases List.mem_cons.mp hx with rfl | hx
        · omega
        · have := h.1 x hx
          omega
      · exact List.pairwise_cons.mpr h
    · rw [List.pairwise_cons]
      constructor
      · intro x hx
        rcases mem_insertByLenDesc.mp hx with rfl | hx
        · omega
        · exact h.1 x hx
      · exact ih h.2

theorem pairwise_sortByLenDesc (l : List String) :
    (sortByLenDesc l).Pairwise (fun x y => y.length ≤ x.length) := by
  induction l with
  | nil => exact List.Pairwise.nil
  | cons a as ih => exact pairwise_insertByLenDesc ih

theorem find?_longest {l : List String} {q : String → Bool} {c : String}
    (hp : l.Pairwise (fun x y => y.length ≤ x.length)) (hf : l.find? q = some c) :
    ∀ x ∈ l, q x = true → x.length ≤ c.length := by
  induction l with
  | nil => simp at hf
  | cons a t ih =>
    rw [List.find?_cons] at hf
    intro x hx hqx
    rcases List.mem_cons.mp hx with rfl | hxt
    · cases hqa : q x with
      | true =>
        rw [hqa] at hf
        injection hf with h
        rw [h]
      | false => rw [hqa] at hqx; exact absurd hqx (by simp)
    · cases hqa : q a with
      | true =>
        rw [hqa] at hf
        injection hf with h
        subst h
        exact List.rel_of_pairwise_cons hp hxt
      | false =>
        rw [hqa] at hf
        exact ih (List.pairwise_cons.mp hp).2 hf x hxt hqx

/-! ## Dictionary lemmas -/

theorem find?_eq_head?_filter {α : Type} (p : α → Bool) (l : List α) :
    l.find? p = (l.filter p).head? := by
  induction l with
  | nil => rfl
  | cons a t ih =>
    rw [List.find?_cons, List.filter_cons]
    cases hpa : p a with
    | true => simp
    | false => exact ih

theorem dictGetBy_eq_getLast {κ ν : Type} [DecidableEq κ] (ps : List (κ × ν)) (k : κ) :
    dictGetBy ps k = ((ps.filter (fun p => decide (p.1 = k))).getLast?).map (·.2) := by
  unfold dictGetBy
  rw [find?_eq_head?_filter, List.filter_reverse, ← List.getLast?_eq_head?_reverse]

/-! ## Claim C5 -/

theorem automationAccuracy_str_str (s t : String) :
    automationAccuracy (Cell.str s) (Cell.str t) =
      if s = t then Except.ok 1 else Except.ok 0 := by
  by_cases h : s = t <;>
    simp [automationAccuracy, pyEq, pyNotna, kand, Cell.isna, h]

/-- C5 counterexample: a record whose reference and resolved profit centers
are both the blank string gets Automation Accuracy 1 — the blank strings are
counted as a match, although the claim says they must never be. -/
theorem c5_counterexample :
    automationAccuracy (Cell.str "") (Cell.str "") = Except.ok 1 := rfl

/-- C5 (amended): Automation Accuracy is 1 iff both profit centers are
non-missing in the pandas sense — i.e. string values, a blank string included
— and equal; in every other case it is 0 (missing values never match, but two
equal blank strings do). -/
theorem c5_amended :
    (∀ pc pcej : Cell, automationAccuracy pc pcej = Except.ok 1 ↔
      ∃ s, pc = Cell.str s ∧ pcej = Cell.str s)
    ∧ (∀ pc pcej : Cell, automationAccuracy pc pcej = Except.ok 1 ∨
        automationAccuracy pc pcej = Except.ok 0) := by
  have hstr : ∀ pc pcej : Cell, automationAccuracy pc pcej = Except.ok 1 ↔
      ∃ s, pc = Cell.str s ∧ pcej = Cell.str s := by
    intro pc pcej
    cases pc with
    | str s =>
      cases pcej with
      | str t =>
        rw [automationAccuracy_str_str]
        by_cases h : s = t
        · subst h
          simp
        · rw [if_neg h]
          simp
          exact fun hts => h hts.symm
      | pyNone => simp [automationAccuracy, pyEq, pyNotna, kand, Cell.isna]
      | pyNA => simp [automationAccuracy, pyEq, pyNotna, kand, Cell.isna]
      | pyNaN => simp [automationAccuracy, pyEq, pyNotna, kand, Cell.isna]
    | pyNone => cases pcej <;> simp [automationAccuracy, pyEq, pyNotna, kand, Cell.isna]
    | pyNA => cases pcej <;> simp [automationAccuracy, pyEq, pyNotna, kand, Cell.isna]
    | pyNaN => cases pcej <;> simp [automationAccuracy, pyEq, pyNotna, kand, Cell.isna]
  refine ⟨hstr, ?_⟩
  intro pc pcej
  cases pc with
  | str s =>
    cases pcej with
    | str t =>
      rw [automationAccuracy_str_str]
      by_cases h : s = t
      · rw [if_pos h]; exact Or.inl rfl
      · rw [if_neg h]; exact Or.inr rfl
    | pyNone => exact Or.inr rfl
    | pyNA => exact Or.inr rfl
    | pyNaN => exact Or.inr rfl
  | pyNone => cases pcej <;> simp [automationAccuracy, pyEq, pyNotna, kand, Cell.isna]
  | pyNA => cases pcej <;> simp [automationAccuracy, pyEq, pyNotna, kand, Cell.isna]
  | pyNaN => cases pcej <;> simp [automationAccuracy, pyEq, pyNotna, kand, Cell.isna]

/-! ## Claim C7 -/

/-- C7 counterexample: two attribute-table rows share the combined address
`"123MAINOH"` with differing loc codes `"0001"` (first) and `"0002"`
(second); the address lookup returns `"0002"`, not the first occurrence. -/
theorem c7_counterexample :
    addrToLocGet
        [(Cell.str "123MAINOH", Cell.str "0001"),
         (Cell.str "123MAINOH", Cell.str "0002")] "123MAINOH" = some "0002"
    ∧ addrToLocGet
        [(Cell.str "123MAINOH", Cell.str "0001"),
         (Cell.str "123MAINOH", Cell.str "0002")] "123MAINOH" ≠ some "0001" := by
  decide

/-- C7 (amended): when rows of the LocationAttributeTable share a combined
address, the combined-address→loc-code lookup maps that address to the loc
code of the **last** distinct (address, code) pair of the table — Python's
`dict` construction keeps the last value for a repeated key — not the first
occurrence. -/
theorem c7_amended : ∀ (table : List (Cell × Cell)) (k : String),
    addrToLocGet table k =
      (((addrToLocPairs table).filter (fun p => decide (p.1 = k))).getLast?).map (·.2) := by
  intro table k
  unfold addrToLocGet
  exact dictGetBy_eq_getLast _ _

/-! ## Claims C8 and C9 -/

/-- C8: the `Account # EJ` rule evaluated at concrete rows. The business-unit
marker takes precedence (`"G59"` in the profit center gives 621000 even though
the consignee and assigned codes differ); equality gives 621000; inequality of
two string codes gives 621020; but when the Assigned Location Code is `pd.NA`
— the pipeline's own unresolved sentinel — the comparison is `NA` and the
lambda raises instead of producing 621020. -/
theorem c8_account_branches :
    accountEJ (Cell.str "US G59 OH") (Cell.str "0001") (Cell.str "0002") = Except.ok 621000
    ∧ accountEJ (Cell.str "US1234") (Cell.str "0003") (Cell.str "0003") = Except.ok 621000
    ∧ accountEJ (Cell.str "US1234") (Cell.str "0003") (Cell.str "0004") = Except.ok 621020
    ∧ accountEJ (Cell.str "US1234") (Cell.str "0003") Cell.pyNA =
        Except.error "boolean value of NA is ambiguous" :=
  ⟨rfl, rfl, rfl, rfl⟩

/-- C9: a pure resolution miss makes the pipeline raise. A row whose carrier
is Omnitrans with a blank consignee code resolves its Assigned Location Code
to `pd.NA` (the unresolved sentinel); the profit-center join then yields `nan`
and the `Account # EJ` lambda evaluates `bool(pd.NA)`, which raises
`TypeError` — the run halts with no output instead of flowing the miss
through as a data value. -/
theorem c9_miss_raises :
    determine_profit_center [] []
      ⟨Cell.pyNone, Cell.pyNone, Cell.pyNone, Cell.pyNone, Cell.pyNone, Cell.pyNone,
       Cell.pyNone, Cell.str "Omnitrans", Cell.pyNone, Cell.pyNone⟩ = Cell.pyNA
    ∧ accountEJ Cell.pyNaN Cell.pyNone Cell.pyNA =
        Except.error "boolean value of NA is ambiguous" :=
  ⟨by decide, rfl⟩

/-! ## Claim C3 -/

theorem fill_code_eq_of_not_needs {pairs : List (String × String)} {code ty addr : Cell}
    (h : needs_address_fill code ty = false) : fill_code pairs code ty addr = code := by
  unfold fill_code
  rw [h]
  simp

theorem needs_address_fill_eq_false_of_nonblank {code ty : Cell}
    (h : (match code with | Cell.pyNone => "" | c => pyStrip c.pyStr) ≠ "") :
    needs_address_fill code ty = false := by
  unfold needs_address_fill
  exact if_pos h

/-- C3: the address-fallback merge never overwrites a non-blank party code —
for any row whose code is a string with non-blank strip, `fill_code` returns
it unchanged — and conversely any row whose code the merge changes had a
blank code (Python `None` or a whitespace-only string; in particular a code
set by the direct-attribute or text-extraction stages is never overwritten). -/
theorem c3_merge_preserves_nonblank :
    (∀ (pairs : List (String × String)) (ty addr : Cell) (s : String),
      pyStrip s ≠ "" → fill_code pairs (Cell.str s) ty addr = Cell.str s)
    ∧ (∀ (pairs : List (String × String)) (code ty addr : Cell),
        fill_code pairs code ty addr ≠ code →
        code = Cell.pyNone ∨ ∃ s, code = Cell.str s ∧ pyStrip s = "") := by
  constructor
  · intro pairs ty addr s hs
    exact fill_code_eq_of_not_needs (needs_address_fill_eq_false_of_nonblank hs)
  · intro pairs code ty addr hne
    cases code with
    | pyNone => exact Or.inl rfl
    | pyNA =>
      exact absurd (fill_code_eq_of_not_needs
        (needs_address_fill_eq_false_of_nonblank (by decide))) hne
    | pyNaN =>
      exact absurd (fill_code_eq_of_not_needs
        (needs_address_fill_eq_false_of_nonblank (by decide))) hne
    | str s =>
      by_cases hb : pyStrip s = ""
      · exact Or.inr ⟨s, rfl, hb⟩
      · exact absurd (fill_code_eq_of_not_needs
          (needs_address_fill_eq_false_of_nonblank hb)) hne

/-- C3 witness: a concrete non-blank code survives the merge even though its
address has a different mapping in the table. -/
theorem c3_witness :
    fill_code [("123MAINOH", "0001")] (Cell.str "0067") Cell.pyNaN
      (Cell.str "123MAINOH") = Cell.str "0067" :=
  c3_merge_preserves_nonblank.1 [("123MAINOH", "0001")] Cell.pyNaN
    (Cell.str "123MAINOH") "0067" (by decide)

/-! ## Claim C6 -/

theorem formatCodeCell_idem (code : Cell) :
    formatCodeCell (formatCodeCell code) = formatCodeCell code := by
  cases code with
  | str s =>
    show formatCodeCell (Cell.str (pyUpper (pyZfill 4 s))) = _
    unfold formatCodeCell
    simp [Cell.isna, Cell.pyStr, formatCode_idem]
  | pyNone => rfl
  | pyNA => rfl
  | pyNaN => rfl

/-- C6: the TypeClassifier overwrites a type only when `typeFillMask` holds
(missing, blank, or the `"N.A."` sentinel) — a populated meaningful type is
returned unchanged — and running `map_types_row` twice with the same location
lookup gives exactly the result of running it once (codes and types). -/
theorem c6_type_mapper :
    (∀ (lookup : String → Cell) (code ty : Cell), typeFillMask ty = false →
      (map_types_row lookup code ty).2 = ty)
    ∧ (∀ (lookup : String → Cell) (code ty : Cell),
        map_types_row lookup (map_types_row lookup code ty).1
          (map_types_row lookup code ty).2 = map_types_row lookup code ty) := by
  constructor
  · intro lookup code ty h
    simp [map_types_row, h]
  · intro lookup code ty
    unfold map_types_row
    rw [formatCodeCell_idem]
    by_cases hm : typeFillMask ty = true
    · rw [if_pos hm]
      simp
    · rw [if_neg hm, if_neg hm]

/-- C6 witness: a populated type survives the classifier, at a concrete code
and lookup. -/
theorem c6_witness :
    (map_types_row (fun _ => Cell.str "US-CINTAS") (Cell.str "67n")
      (Cell.str "US-DC")).2 = Cell.str "US-DC" :=
  c6_type_mapper.1 (fun _ => Cell.str "US-CINTAS") (Cell.str "67n")
    (Cell.str "US-DC") (by decide)

/-! ## Claim C10 -/

/-- C10: for a row whose Carrier Name strips case-insensitively to
`"omnitrans"`, the direct-attribute stage is skipped — the whole party
resolution behaves exactly as if the Org/Dest Type Code column were absent,
so the party code can only come from text extraction or address fallback —
and when the Carrier Name column is absent, the direct-attribute stage
applies to every row with a non-blank attribute. -/
theorem c10_omnitrans_skips_direct :
    (∀ (codes : List String) (valid : Option (List String))
       (pairs : List (String × String)) (inp : PartyInput) (c : Cell),
      inp.carrierCol = some c → pyLower (pyStrip c.pyStr) = "omnitrans" →
      resolvePartyCode codes valid pairs inp =
        resolvePartyCode codes valid pairs
          { inp with attrCol := none })
    ∧ (∀ (a : Cell) (code : Cell), pyStrip a.pyStr ≠ "" →
        applyDirectAttr (some a) (carrier_ok none) code = Cell.str (pyUpper (pyStrip a.pyStr))) := by
  constructor
  · intro codes valid pairs inp c hc homni
    have hok : carrier_ok inp.carrierCol = false := by
      rw [hc]
      simp [carrier_ok, homni]
    have h1 : applyDirectAttr inp.attrCol (carrier_ok inp.carrierCol) inp.code0 = inp.code0 := by
      rw [hok]
      cases inp.attrCol with
      | none => rfl
      | some a => simp [applyDirectAttr]
    unfold resolvePartyCode
    rw [h1]
    rfl
  · intro a code h
    simp [applyDirectAttr, carrier_ok, h]

/-- C10 witness: at a concrete Omnitrans row, resolution with a non-blank
Dest Type Code equals resolution with the attribute column absent. -/
theorem c10_witness :
    resolvePartyCode [] none []
      ⟨some (Cell.str "0067"), some (Cell.str " Omnitrans "), none,
       Cell.pyNaN, Cell.pyNaN, Cell.pyNaN⟩ =
    resolvePartyCode [] none []
      ⟨none, some (Cell.str " Omnitrans "), none,
       Cell.pyNaN, Cell.pyNaN, Cell.pyNaN⟩ :=
  c10_omnitrans_skips_direct.1 [] none []
    ⟨some (Cell.str "0067"), some (Cell.str " Omnitrans "), none,
     Cell.pyNaN, Cell.pyNaN, Cell.pyNaN⟩ (Cell.str " Omnitrans ") rfl (by decide)

/-! ## Claim C2 -/

/-- C2: whenever text-token extraction resolves a code, the chosen code is a
dictionary code occurring as a whole alphanumeric token of the name, and no
dictionary code occurring as a token is longer — a shorter code that is a
substring of a longer present code is never chosen. In particular, the
end-to-end scenario: party name `"CINTAS 067N 14601 SOVEREIGN RD"`, blank
type, dictionary `{"67N", "067N"}` resolves to `"067N"`. -/
theorem c2_longest_token_match :
    (∀ (col : List Cell) (name : Cell) (c : String),
      find_code_in_text (prepCodes col) name = some c →
      c ∈ prepCodes col ∧ c ∈ tokensOfCell name ∧
        ∀ c' ∈ prepCodes col, c' ∈ tokensOfCell name → c'.length ≤ c.length)
    ∧ resolvePartyCode (prepCodes [Cell.str "67N", Cell.str "067N"]) none []
        ⟨none, none, some (Cell.str "CINTAS 067N 14601 SOVEREIGN RD"),
         Cell.pyNaN, Cell.pyNaN, Cell.pyNaN⟩ = Cell.str "067N" := by
  constructor
  · intro col name c hf
    unfold find_code_in_text at hf
    have hmem := List.mem_of_find?_eq_some hf
    have hq := List.find?_some hf
    have htok : c ∈ tokensOfCell name := of_decide_eq_true hq
    refine ⟨hmem, htok, ?_⟩
    intro c' hc' htk'
    have hp : (prepCodes col).Pairwise (fun x y => y.length ≤ x.length) := by
      unfold prepCodes
      exact pairwise_sortByLenDesc _
    exact find?_longest hp hf c' hc' (decide_eq_true htk')
  · decide

/-- C2 witness: the chosen code of the concrete scenario is in the prepared
dictionary and is a whole token of the name. -/
theorem c2_witness :
    "067N" ∈ prepCodes [Cell.str "67N", Cell.str "067N"]
    ∧ "067N" ∈ tokensOfCell (Cell.str "CINTAS 067N 14601 SOVEREIGN RD") := by
  have h := c2_longest_token_match.1 [Cell.str "67N", Cell.str "067N"]
    (Cell.str "CINTAS 067N 14601 SOVEREIGN RD") "067N" (by decide)
  exact ⟨h.1, h.2.1⟩

/-! ## Claim C4 -/

/-- C4: for a record to which no earlier profit-center rule applies (no
Matheson/FS consignor, carrier not Omnitrans, no Averitt or Coopetrajes name
rule, destination code not a special code), if the normalized Consignee Code
is in the 67N location-code set, the normalized Origin Address starts with
`"570 MATH"`, and the consignor name does not reference the excluded code
0897 in any of its written forms (`cintas 0897` / `0897` / bare `897`), the
Assigned Location Code is `"067N"` — whatever the matrix configuration. -/
theorem c4_geography_67N :
    ∀ (special_map coding_map : List ((String × String) × String)) (row : MatrixRow),
      (pyContains (pyLower (pyNorm row.consignor)) "matheson"
        && pyContains (pyLower (pyNorm row.consignor)) "fs") = false →
      getCarrier row ≠ "omnitrans" →
      pyContains (pyNorm row.consignor) "AVERITT" = false →
      (pyContains (pyNorm row.consignor) "COOPETRAJES"
        || pyContains (pyNorm row.consignee) "COOPETRAJES") = false →
      pyNorm row.consigneeCode ∉ SPECIAL_CODES →
      pyNorm row.consigneeCode ∈ LOCATION_CODES_67N →
      pyStartsWith (pyNorm row.originAddress) "570 MATH" = true →
      (pyContains (pyLower (pyNorm row.consignor)) "cintas 0897"
        || pyContains (pyLower (pyNorm row.consignor)) "0897"
        || pyContains (pyLower (pyNorm row.consignor)) "897") = false →
      determine_profit_center special_map coding_map row = Cell.str "067N" := by
  intro special_map coding_map row h1 h2 h3 h4 h5 h6 h7 h8
  unfold determine_profit_center
  simp [h1, h2, h3, h4, h5, h6, h7, h8]

/-- C4 witness: the end-to-end scenario — Consignee Code `"029N"`, Origin
Address `"570 MATHESON BLVD"`, consignor not referencing 0897 — resolves to
`"067N"` under an arbitrary concrete (empty) matrix configuration. -/
theorem c4_witness :
    determine_profit_center [] []
      ⟨Cell.str "ACME CORP", Cell.str "", Cell.str "029N", Cell.pyNone,
       Cell.str "570 MATHESON BLVD", Cell.pyNone, Cell.pyNone, Cell.pyNone,
       Cell.pyNone, Cell.pyNone⟩ = Cell.str "067N" :=
  c4_geography_67N [] []
    ⟨Cell.str "ACME CORP", Cell.str "", Cell.str "029N", Cell.pyNone,
     Cell.str "570 MATHESON BLVD", Cell.pyNone, Cell.pyNone, Cell.pyNone,
     Cell.pyNone, Cell.pyNone⟩
    (by decide) (by decide) (by decide) (by decide) (by decide) (by decide)
    (by decide) (by decide)

/-! ## Claim C1 -/

/-- C1 counterexample: a record with non-blank Org Type Code `"ZZZZ"` that is
not in the location table is blanked by the invalid-code step, and its
resolved consignor code ends as `pd.NA`, not the attribute — the stages after
the direct-attribute priority *do* change it. -/
theorem c1_counterexample :
    resolvePartyCode [] (some ["0001"]) []
      ⟨some (Cell.str "ZZZZ"), none, none, Cell.str "US-CINTAS",
       Cell.pyNaN, Cell.str "X"⟩ = Cell.pyNA
    ∧ Cell.pyNA ≠ Cell.str "ZZZZ" := by decide

/-- C1 (amended): for every record whose direct-attribute column holds a
string with non-blank strip, whose carrier passes the `carrier_ok` check, and
whose stripped, upper-cased attribute is a valid location code (or no
loc-code column was found, so the invalid-code step is skipped), the resolved
party code is exactly the stripped upper-cased attribute — the
text-extraction, invalid-blanking and address-fallback stages leave it
unchanged, whatever the dictionary, the address table and the other fields. -/
theorem c1_amended :
    ∀ (codes : List String) (pairs : List (String × String)) (inp : PartyInput)
      (s : String) (valid : Option (List String)),
      inp.attrCol = some (Cell.str s) →
      pyStrip s ≠ "" →
      carrier_ok inp.carrierCol = true →
      (valid = none ∨ ∃ vs, valid = some vs ∧ pyUpper (pyStrip s) ∈ vs) →
      resolvePartyCode codes valid pairs inp = Cell.str (pyUpper (pyStrip s)) := by
  intro codes pairs inp s valid hattr hs hok hvalid
  have hust : pyStrip (pyUpper (pyStrip s)) = pyUpper (pyStrip s) :=
    pyStrip_pyUpper_pyStrip s
  have hune : pyUpper (pyStrip s) ≠ "" := by
    intro h
    exact hs ((pyUpper_eq_empty_iff (pyStrip s)).mp h)
  have huu : pyUpper (pyUpper (pyStrip s)) = pyUpper (pyStrip s) :=
    pyUpper_pyUpper (pyStrip s)
  have hblank : blank_or_na (Cell.str (pyUpper (pyStrip s))) = false := by
    simp [blank_or_na, Cell.isna, Cell.pyStr, hust, hune]
  have h1 : applyDirectAttr inp.attrCol (carrier_ok inp.carrierCol) inp.code0 =
      Cell.str (pyUpper (pyStrip s)) := by
    rw [hattr, hok]
    unfold applyDirectAttr
    simp only [Cell.pyStr]
    rw [if_pos ⟨hs, by simp⟩]
  have h2 : applyTextExtract codes inp.nameCol inp.ty (Cell.str (pyUpper (pyStrip s))) =
      Cell.str (pyUpper (pyStrip s)) := by
    unfold applyTextExtract
    cases inp.nameCol with
    | none => rfl
    | some nm => simp [hblank]
  have h3 : applyInvalidBlank valid (Cell.str (pyUpper (pyStrip s))) =
      (Cell.str (pyUpper (pyStrip s)), false) := by
    rcases hvalid with h | ⟨vs, hv, hmem⟩
    · rw [h]
      rfl
    · rw [hv]
      unfold applyInvalidBlank
      simp only [Cell.pyStr, Cell.isna, hust, huu]
      simp [hmem]
  have h4 : applyAddressFill pairs inp.ty inp.addr
      (Cell.str (pyUpper (pyStrip s)), false) = Cell.str (pyUpper (pyStrip s)) := by
    unfold applyAddressFill
    simp [hblank]
  unfold resolvePartyCode
  rw [h1, h2, h3, h4]

/-- C1 witness: a valid non-blank attribute `" 0067 "` resolves to `"0067"`
through all four stages. -/
theorem c1_witness :
    resolvePartyCode [] (some ["0067"]) []
      ⟨some (Cell.str " 0067 "), none, none, Cell.str "US-CINTAS",
       Cell.pyNaN, Cell.str "X"⟩ = Cell.str "0067" := by
  have h := c1_amended [] []
    ⟨some (Cell.str " 0067 "), none, none, Cell.str "US-CINTAS",
     Cell.pyNaN, Cell.str "X"⟩ " 0067 " (some ["0067"])
    rfl (by decide) (by decide) (Or.inr ⟨["0067"], rfl, by decide⟩)
  exact h.trans (by decide)
